import Mathlib

/-!
Shallow embedding of the filtering / deduplication pipeline of
`rfp_monitor.py`, together with theorems settling the specification claims.

Python strings are modelled as Lean `String` (a wrapper around `List Char`);
all string primitives used by the program (`in`, `str.split`, `str.strip`,
`str.lower`, `str.endswith`) are re-implemented structurally over `List Char`
so that every definition is executable by kernel reduction.  Python's
whitespace set is modelled by its ASCII members; `str.lower` is modelled by
ASCII lowering (`Char.toLower`) — all titles, URLs and keywords the claims
touch are ASCII.

HTTP fetching, HTML parsing, URL resolution (`urljoin` / `urlparse`), the
OpenAI SDK and the wall clock are collaborator boundaries (spec §1): their
outputs enter the embedded functions as explicit parameters.
-/

set_option maxHeartbeats 1000000

namespace RFP

/-! ### Python string primitives -/

/-- Python's whitespace test (`str.split()` / `str.strip()`), ASCII part. -/
def pyIsSpace (c : Char) : Bool :=
  c = ' ' || c = '\t' || c = '\n' || c = '\x0d' || c = '\x0b' || c = '\x0c'

/-- `strPre n h` : `n` is a leading run of `h` (used to implement Python's
substring test). -/
def strPre : List Char → List Char → Bool
  | [], _ => true
  | _ :: _, [] => false
  | a :: as, b :: bs => a == b && strPre as bs

/-- Python's substring operator `n in h` on character lists: `n` occurs
contiguously somewhere in `h` (the empty needle always matches). -/
def strIn : List Char → List Char → Bool
  | n, [] => n.isEmpty
  | n, c :: t => strPre n (c :: t) || strIn n t

/-- Python `needle in hay` on `String`s. -/
def strContains (hay needle : String) : Bool :=
  strIn needle.data hay.data

/-- Python `h.endswith(n)`. -/
def strEndsWith (h n : String) : Bool :=
  strPre n.data.reverse h.data.reverse

/-- Python `s.lower()` (ASCII). -/
def strLower (s : String) : String :=
  String.mk (s.data.map Char.toLower)

/-- `str.strip()` on character lists: drop leading and trailing whitespace. -/
def pyStripChars (s : List Char) : List Char :=
  ((s.dropWhile pyIsSpace).reverse.dropWhile pyIsSpace).reverse

/-- Python `s.strip()`. -/
def pyStrip (s : String) : String :=
  String.mk (pyStripChars s.data)

/-- `str.split()` worker: split on whitespace runs, dropping empty words.
`acc` holds the (reversed) current word. -/
def splitWSGo (acc : List Char) : List Char → List (List Char)
  | [] => if acc.isEmpty then [] else [acc.reverse]
  | c :: rest =>
    if pyIsSpace c then
      if acc.isEmpty then splitWSGo [] rest
      else acc.reverse :: splitWSGo [] rest
    else splitWSGo (c :: acc) rest

/-- Python `s.split()` (no separator: split on whitespace runs). -/
def pySplit (s : List Char) : List (List Char) := splitWSGo [] s

/-- Python `" ".join(words)`. -/
def joinSpace : List (List Char) → List Char
  | [] => []
  | [w] => w
  | w :: w' :: rest => w ++ ' ' :: joinSpace (w' :: rest)

/-! ### Normalization and the trade denylist -/

/-- `normalize_text` (rfp_monitor.py:132-133):
`" ".join(text.split()).strip().lower()`. -/
def normalize_text (text : String) : String :=
  String.mk ((pyStripChars (joinSpace (pySplit text.data))).map Char.toLower)

/-- `TRADE_DROP_WORDS` (rfp_monitor.py:23-53): the fixed trade denylist. -/
def TRADE_DROP_WORDS : List String :=
  ["asphalt", "paving", "plow", "snow removal", "hvac", "plumbing",
   "flooring", "roof", "roofing", "janitorial", "cleaning", "welding",
   "fleet", "truck", "bus", "vehicle", "tree removal", "landscaping",
   "fencing", "doors", "windows", "supplies", "parts", "hardware",
   "concrete", "demolition", "construction", "road", "pavement"]

/-- `trade_drop` (rfp_monitor.py:318-320): does the normalized title contain
any denylisted trade term? -/
def trade_drop (title : String) : Bool :=
  let hay := normalize_text title
  TRADE_DROP_WORDS.any (fun word => strIn word.data hay.data)

/-! ### Data model -/

/-- A candidate item, the `{"title": ..., "url": ...}` dict flowing through
the pipeline.  `reason` models the optional `"reason"` key the LLM filter may
attach (absent on items produced by extraction/diffing). -/
structure Item where
  title : String
  url : String
  reason : Option String := none
deriving DecidableEq, Repr

/-- The persisted seen-state: source name → list of already-reported URLs
(`seen.json` decodes to `Dict[str, List[str]]`; a missing key reads as `[]`,
matching `seen.get(source.name, [])`).  `diff_new_items` converts the entry
to a Python `set`, so only membership of an entry is ever observed; the
updated entry (`list(known_urls.union(...))`, whose iteration order is
unspecified) is represented by any list with the union's membership. -/
abbrev SeenStore := String → List String

/-! ### Seen-store differ -/

/-- `diff_new_items` (rfp_monitor.py:207-219).  The Python function mutates
`seen` in place and returns the new items; here it returns the pair
(new items, updated store). -/
def diff_new_items (name : String) (items : List Item) (seen : SeenStore) :
    List Item × SeenStore :=
  let known_urls := seen name
  let new_items := items.filter fun item => decide (item.url ∉ known_urls)
  if new_items.isEmpty then (new_items, seen)
  else
    (new_items,
     fun n => if n = name then known_urls ++ new_items.map Item.url else seen n)

/-! ### Candidate filter (the per-anchor filtering of `fetch_source`) -/

/-- One extracted link, as handed to the filtering loop of `fetch_source`
(rfp_monitor.py:156-167): `title` is the anchor text after the
`get_text(...) or href` fallback, `href` the `urljoin`ed absolute URL, and
`scheme` / `netloc` / `fragment` the fields of `urlparse(href)`.  HTML and
URL parsing are collaborator boundaries; their outputs are carried here. -/
structure Anchor where
  title : String
  href : String
  scheme : String
  netloc : String
  fragment : String
deriving DecidableEq, Repr

/-- The per-anchor filter of `fetch_source` (rfp_monitor.py:156-177): an
anchor survives the loop (is appended to `matches`) iff every `continue`
guard is passed.  Keywords are lowercased on entry (lines 153-154). -/
def anchor_passes (include_keywords exclude_keywords : List String)
    (a : Anchor) : Bool :=
  let inc := include_keywords.map strLower
  let exc := exclude_keywords.map strLower
  if a.scheme ≠ "http" ∧ a.scheme ≠ "https" then false
  else if a.netloc = "" then false
  else if strEndsWith a.href "#" = true ∨ a.fragment ≠ "" then false
  else
    let haystack := normalize_text (a.title ++ " " ++ a.href)
    if inc ≠ [] ∧ (inc.any fun k => strIn k.data haystack.data) = false
    then false
    else if exc ≠ [] ∧ (exc.any fun k => strIn k.data haystack.data) = true
    then false
    else if trade_drop a.title = true then false
    else true

/-- The `matches` list built by the filtering loop of `fetch_source`. -/
def candidate_filter (include_keywords exclude_keywords : List String)
    (anchors : List Anchor) : List Anchor :=
  anchors.filter (anchor_passes include_keywords exclude_keywords)

/-! ### JSON values and Python coercions (for the LLM response) -/

/-- A decoded JSON value, the result of `json.loads` on the classifier
response.  JSON numbers are modelled by their integral values (the classifier
protocol only carries integer indices and booleans). -/
inductive JValue where
  | null
  | bool (b : Bool)
  | num (n : Int)
  | str (s : String)
  | arr (elems : List JValue)
  | obj (fields : List (String × JValue))

/-- `d.get(key)`: `None` when absent (object keys assumed unique, as
`json.loads` produces). -/
def jget (fields : List (String × JValue)) (key : String) : JValue :=
  match fields.lookup key with
  | some v => v
  | none => .null

/-- `d.get(key, default)`. -/
def jgetD (fields : List (String × JValue)) (key : String) (d : JValue) :
    JValue :=
  match fields.lookup key with
  | some v => v
  | none => d

/-- Python truthiness (`bool(v)`) of a decoded JSON value. -/
def pyTruthy : JValue → Bool
  | .null => false
  | .bool b => b
  | .num n => decide (n ≠ 0)
  | .str s => !s.data.isEmpty
  | .arr xs => !xs.isEmpty
  | .obj fields => !fields.isEmpty

def digitVal? (c : Char) : Option Nat :=
  if '0' ≤ c ∧ c ≤ '9' then some (c.toNat - 48) else none

def digitsValGo (acc : Nat) : List Char → Option Nat
  | [] => some acc
  | c :: rest =>
    match digitVal? c with
    | some d => digitsValGo (acc * 10 + d) rest
    | none => none

/-- Value of a non-empty all-digit run, `none` otherwise. -/
def digitsVal? : List Char → Option Nat
  | [] => none
  | cs => digitsValGo 0 cs

/-- Python `int(s)` on a string: surrounding whitespace and one sign allowed,
then decimal digits (digit-group underscores are not modelled). -/
def pyParseInt? (s : String) : Option Int :=
  match pyStripChars s.data with
  | '+' :: rest => (digitsVal? rest).map (fun n => (n : Int))
  | '-' :: rest => (digitsVal? rest).map (fun n => -(n : Int))
  | rest => (digitsVal? rest).map (fun n => (n : Int))

/-- Python `int(v)` on a decoded JSON value: ints and bools convert, strings
parse (raising = `none`), everything else raises. -/
def pyInt? : JValue → Option Int
  | .num n => some n
  | .bool b => some (if b then 1 else 0)
  | .str s => pyParseInt? s
  | _ => none

/-- Python iteration `for x in v`: lists yield their elements, strings their
characters, dicts their keys; other values raise `TypeError` (= `none`). -/
def pyIter? : JValue → Option (List JValue)
  | .arr xs => some xs
  | .str s => some (s.data.map fun c => .str (String.mk [c]))
  | .obj fields => some (fields.map fun kv => .str kv.1)
  | _ => none

mutual

/-- Python `repr()` of a decoded JSON value (string escaping inside quotes is
not modelled; no claim depends on container rendering). -/
def pyRepr : JValue → String
  | .null => "None"
  | .bool true => "True"
  | .bool false => "False"
  | .num n => toString n
  | .str s => "\x27" ++ s ++ "\x27"
  | .arr xs => "[" ++ pyReprElems xs ++ "]"
  | .obj fields => "\x7b" ++ pyReprFields fields ++ "\x7d"

def pyReprElems : List JValue → String
  | [] => ""
  | [x] => pyRepr x
  | x :: y :: rest => pyRepr x ++ ", " ++ pyReprElems (y :: rest)

def pyReprFields : List (String × JValue) → String
  | [] => ""
  | [(k, v)] => "\x27" ++ k ++ "\x27: " ++ pyRepr v
  | (k, v) :: p :: rest =>
    "\x27" ++ k ++ "\x27: " ++ pyRepr v ++ ", " ++ pyReprFields (p :: rest)

end

/-- Python `str()` of a decoded JSON value (as interpolated into
`item["reason"]` display): strings pass through, others render via `repr`. -/
def pyStr : JValue → String
  | .str s => s
  | v => pyRepr v

/-! ### Environment and LLM configuration -/

/-- The process environment (`os.getenv`), a collaborator input. -/
structure Env where
  vars : List (String × String)

/-- `os.getenv(k)`. -/
def Env.get? (e : Env) (k : String) : Option String :=
  e.vars.lookup k

/-- `TRUTHY_ENV` (rfp_monitor.py:56). -/
def TRUTHY_ENV : List String := ["1", "true", "yes", "on"]

/-- `FALSY_ENV` (rfp_monitor.py:57). -/
def FALSY_ENV : List String := ["0", "false", "no", "off"]

/-- `env_flag` (rfp_monitor.py:63-73): `True`/`False` if the env var holds a
recognizable boolean token, else `None`. -/
def env_flag (e : Env) (var_name : String) : Option Bool :=
  match e.get? var_name with
  | none => none
  | some raw =>
    let normalized := strLower (pyStrip raw)
    if TRUTHY_ENV.contains normalized then some true
    else if FALSY_ENV.contains normalized then some false
    else none

/-- The `llm` sub-configuration dict.  Each field models
`llm_cfg.get(key, default)` with the source's defaults; `enabled` models
`bool(llm_cfg.get("enabled"))` and `rationale` the truthiness of
`llm_cfg.get("rationale", False)`; `model = none` models an absent
`"model"` key. -/
structure LlmCfg where
  enabled : Bool := false
  enabled_env : String := "LLM_ENABLED"
  model : Option String := none
  model_env : String := "LLM_MODEL"
  api_key_env : String := "OPENAI_API_KEY"
  rationale : Bool := false

/-- `llm_enabled` (rfp_monitor.py:76-82): env override, else static flag. -/
def llm_enabled (cfg : LlmCfg) (e : Env) : Bool :=
  match env_flag e cfg.enabled_env with
  | some b => b
  | none => cfg.enabled

/-- `llm_model` (rfp_monitor.py:85-88):
`os.getenv(env_var) or llm_cfg.get("model", "gpt-5-nano")` — note Python's
`or`, under which a *falsy* (empty) environment value falls through. -/
def llm_model (cfg : LlmCfg) (e : Env) : String :=
  match e.get? cfg.model_env with
  | some v => if v = "" then cfg.model.getD "gpt-5-nano" else v
  | none => cfg.model.getD "gpt-5-nano"

/-! ### The LLM filter -/

/-- Outcome of the guarded block of `llm_filter` (rfp_monitor.py:267-281):
any exception in the API call, response access, or `json.loads` is `error`;
otherwise `ok` carries the decoded JSON.  (Client construction on line 246
is modelled as non-failing local setup.) -/
inductive CallResult where
  | error
  | ok (data : JValue)

/-- The body of the verdict loop of `llm_filter` (rfp_monitor.py:285-296):
what one response record contributes to `keep_items`.  `none` covers both
the `except: continue` branch (record not a dict, or `int()` failing on its
`"index"`) and the guard `0 <= idx < len(items) and keep` failing. -/
def parse_rec (items : List Item) (rationale : Bool) (rcd : JValue) :
    Option Item :=
  match rcd with
  | .obj fields =>
    match pyInt? (jget fields "index") with
    | none => none
    | some idx =>
      let keep := pyTruthy (jget fields "keep")
      let reasonV := jgetD fields "reason" (.str "")
      if 0 ≤ idx ∧ idx < (items.length : Int) ∧ keep = true then
        match items[idx.toNat]? with
        | some item =>
          some { item with
                 reason := if rationale && pyTruthy reasonV then
                             some (pyStr reasonV)
                           else item.reason }
        | none => none
      else none
  | _ => none

/-- The input index a record validly designates with `keep` truthy
(the same guard as `parse_rec`, projected to the index). -/
def rec_kept_index? (items : List Item) (rcd : JValue) : Option Nat :=
  match rcd with
  | .obj fields =>
    match pyInt? (jget fields "index") with
    | some idx =>
      if 0 ≤ idx ∧ idx < (items.length : Int) ∧
          pyTruthy (jget fields "keep") = true
      then some idx.toNat else none
    | none => none
  | _ => none

/-- A verdict record that is malformed (not a dict, or its `"index"` does not
convert to an int) or whose index is out of range for the submitted batch. -/
def malformed_or_oob (items : List Item) (rcd : JValue) : Prop :=
  match rcd with
  | .obj fields =>
    pyInt? (jget fields "index") = none ∨
      ∃ i, pyInt? (jget fields "index") = some i ∧
        ¬(0 ≤ i ∧ i < (items.length : Int))
  | _ => True

/-- A classifier response whose decoded JSON is `{"results": recs}`. -/
def mkData (recs : List JValue) : JValue :=
  .obj [("results", .arr recs)]

/-- `llm_filter` (rfp_monitor.py:222-297).  The ambient effects are explicit
parameters: `e` the process environment, `sdkAvailable` whether
`from openai import OpenAI` succeeds, `call` the outcome of the guarded API
call.  The result is `Except`: `.error ()` models the uncaught `TypeError`
when the decoded response's `"results"` value is not iterable (the `for`
loop on line 285 sits outside the `try`). -/
def llm_filter (items : List Item) (cfg : LlmCfg) (e : Env)
    (sdkAvailable : Bool) (call : CallResult) : Except Unit (List Item) :=
  if items.isEmpty then .ok items
  else
    let rationale := cfg.rationale
    if llm_enabled cfg e = false then .ok items
    else if (e.get? cfg.api_key_env).getD "" = "" then .ok items
    else if sdkAvailable = false then .ok items
    else
      match call with
      | .error => .ok items
      | .ok data =>
        let results : JValue :=
          match data with
          | .obj fields => jgetD fields "results" (.arr [])
          | _ => .arr []
        match pyIter? results with
        | none => .error ()
        | some recs => .ok (recs.filterMap (parse_rec items rationale))

/-! ### Report formatter -/

/-- A wall-clock instant, the collaborator input behind `datetime.now()`. -/
structure PyDateTime where
  year : Nat
  month : Nat
  day : Nat
  hour : Nat
  minute : Nat

def digitChar (n : Nat) : Char := Char.ofNat (48 + n)

def pad2 (n : Nat) : String :=
  String.mk [digitChar (n / 10 % 10), digitChar (n % 10)]

def pad4 (n : Nat) : String :=
  String.mk [digitChar (n / 1000 % 10), digitChar (n / 100 % 10),
             digitChar (n / 10 % 10), digitChar (n % 10)]

/-- `datetime.now().strftime("%Y-%m-%d %H:%M")` (rfp_monitor.py:305) applied
to a given instant: zero-padded fixed-width rendering of the five fields. -/
def strftime_stamp (t : PyDateTime) : String :=
  pad4 t.year ++ "-" ++ pad2 t.month ++ "-" ++ pad2 t.day ++ " " ++
    pad2 t.hour ++ ":" ++ pad2 t.minute

/-- The lines appended for one item (rfp_monitor.py:310-314): bulleted title,
an indented reason line when the `"reason"` key is present, indented URL. -/
def item_lines (item : Item) : List String :=
  ("- " ++ item.title) ::
    (match item.reason with
     | some r => ["  Reason: " ++ r, "  " ++ item.url]
     | none => ["  " ++ item.url])

/-- The lines appended for one source (rfp_monitor.py:307-314): blank-line
prefix on the name, underline of matching length, then the items. -/
def source_block (name : String) (items : List Item) : List String :=
  ("\n" ++ name) :: String.mk (List.replicate name.length '-') ::
    items.flatMap item_lines

/-- The full `lines` list of `format_report` for a non-empty mapping
(rfp_monitor.py:304-314). -/
def report_lines (now : PyDateTime) (m : List (String × List Item)) :
    List String :=
  ("RFP Monitor Report – " ++ strftime_stamp now) ::
    String.mk (List.replicate 60 '=') ::
    m.flatMap fun p => source_block p.1 p.2

/-- Python `"\n".join(lines)`. -/
def join_nl : List String → String
  | [] => ""
  | [l] => l
  | l :: l' :: rest => l ++ "\n" ++ join_nl (l' :: rest)

/-- `format_report` (rfp_monitor.py:300-315).  The insertion-ordered dict
`new_items_by_source` is modelled as an association list; the wall clock is
the explicit `now` parameter. -/
def format_report (now : PyDateTime)
    (m : List (String × List Item)) : String :=
  if m.isEmpty then "No new RFPs or calls for proposals found today."
  else join_nl (report_lines now m)

/-! ### Concrete fixtures used by witnesses and counterexamples -/

def storeEx : SeenStore := fun n => if n = "Example" then ["https://old.com"] else []

def itemOld : Item := ⟨"old", "https://old.com", none⟩

def itemNew : Item := ⟨"new", "https://new.com", none⟩

def itemsEx : List Item := [itemOld, itemNew]

def itemA : Item := ⟨"Web Portal Development", "https://a.example/portal", none⟩

def itemB : Item := ⟨"LMS Platform RFP", "https://b.example/lms", none⟩

/-- A verdict record `{"index": i, "keep": true}`. -/
def recKeep (i : Int) : JValue := .obj [("index", .num i), ("keep", .bool true)]

def cfgOn : LlmCfg := { enabled := true }

def envKey : Env := ⟨[("OPENAI_API_KEY", "sk-test")]⟩

/-- A response listing its verdicts in decreasing index order. -/
def respSwapped : JValue := mkData [recKeep 1, recKeep 0]

/-- A response listing its verdicts in increasing index order. -/
def respOrdered : JValue := mkData [recKeep 0, recKeep 1]

def cfgModelled : LlmCfg := { model := some "cfg-model" }

def envEmptyModel : Env := ⟨[("LLM_MODEL", "")]⟩

def envModelSet : Env := ⟨[("LLM_MODEL", "gpt-xyz")]⟩

/-- An env disabling the LLM via the override token `"0"` while a key is
present. -/
def envOff : Env := ⟨[("LLM_ENABLED", "0"), ("OPENAI_API_KEY", "sk-test")]⟩

/-- A malformed verdict record (not a dict). -/
def recBad : JValue := .str "oops"

def anchorRoad : Anchor :=
  ⟨"Road Repair Service", "https://ex.gov/road", "http", "ex.gov", ""⟩

def anchorWeb : Anchor :=
  ⟨"Web Portal Development", "https://ex.gov/portal", "https", "ex.gov", ""⟩

def reportEx : List (String × List Item) :=
  [("Example", [⟨"Item", "https://x.com", none⟩])]

def timeEx : PyDateTime := ⟨2024, 1, 1, 12, 30⟩

/-! ## Theorems -/

/-! ### Substring lemmas -/

theorem strPre_iff (n h : List Char) : strPre n h = true ↔ ∃ t, h = n ++ t := by
  induction n generalizing h with
  | nil => simp [strPre]
  | cons a as ih =>
    cases h with
    | nil => simp [strPre]
    | cons b bs =>
      simp only [strPre, Bool.and_eq_true, beq_iff_eq, ih, List.cons_append,
        List.cons.injEq]
      constructor
      · rintro ⟨rfl, t, rfl⟩; exact ⟨t, rfl, rfl⟩
      · rintro ⟨t, rfl, rfl⟩; exact ⟨rfl, t, rfl⟩

theorem strIn_iff (n h : List Char) :
    strIn n h = true ↔ ∃ p t, h = p ++ n ++ t := by
  induction h with
  | nil =>
    simp only [strIn, List.isEmpty_iff]
    constructor
    · rintro rfl; exact ⟨[], [], rfl⟩
    · rintro ⟨p, t, he⟩
      rcases List.append_eq_nil.mp (List.append_eq_nil.mp he.symm).1 with ⟨-, h2⟩
      exact h2
  | cons c t ih =>
    simp only [strIn, Bool.or_eq_true, strPre_iff, ih]
    constructor
    · rintro (⟨u, hu⟩ | ⟨p, u, rfl⟩)
      · exact ⟨[], u, by simpa using hu⟩
      · exact ⟨c :: p, u, rfl⟩
    · rintro ⟨p, u, he⟩
      cases p with
      | nil => exact Or.inl ⟨u, by simpa using he⟩
      | cons x xs =>
        simp only [List.cons_append, List.cons.injEq] at he
        exact Or.inr ⟨xs, u, he.2⟩

/-- Substring containment is transitive. -/
theorem strIn_trans {a b c : List Char} (h1 : strIn a b = true)
    (h2 : strIn b c = true) : strIn a c = true := by
  rw [strIn_iff] at *
  obtain ⟨p, t, rfl⟩ := h1
  obtain ⟨q, u, rfl⟩ := h2
  exact ⟨q ++ p, t ++ u, by simp⟩

/-- A string occurs inside any extension of itself on both sides. -/
theorem strIn_append {n pre post : List Char} :
    strIn n (pre ++ n ++ post) = true := by
  rw [strIn_iff]; exact ⟨pre, post, rfl⟩

theorem strIn_refl (s : List Char) : strIn s s = true := by
  rw [strIn_iff]; exact ⟨[], [], by simp⟩

/-- Extending the haystack preserves containment. -/
theorem strIn_mono {n h pre post : List Char} (hn : strIn n h = true) :
    strIn n (pre ++ h ++ post) = true := by
  rw [strIn_iff] at hn ⊢
  obtain ⟨p, t, rfl⟩ := hn
  exact ⟨pre ++ p, t ++ post, by simp⟩

example : normalize_text "  Hello   WORLD  " = "hello world" := by decide
example : trade_drop "Road Repair Service" = true := by decide
example : trade_drop "Web Portal Development" = false := by decide

/-! ### Seen-store differ lemmas -/

theorem diff_new_items_fst (name : String) (items : List Item)
    (seen : SeenStore) :
    (diff_new_items name items seen).1 =
      items.filter fun item => decide (item.url ∉ seen name) := by
  unfold diff_new_items
  dsimp only
  split <;> rfl

theorem diff_new_items_snd_other (name : String) (items : List Item)
    (seen : SeenStore) (n : String) (hn : n ≠ name) :
    (diff_new_items name items seen).2 n = seen n := by
  unfold diff_new_items
  dsimp only
  split
  · rfl
  · simp [hn]

theorem mem_diff_new_items_snd (name : String) (items : List Item)
    (seen : SeenStore) (u : String) :
    u ∈ (diff_new_items name items seen).2 name ↔
      u ∈ seen name ∨
        u ∈ (items.filter fun item => decide (item.url ∉ seen name)).map Item.url := by
  unfold diff_new_items
  dsimp only
  split
  next h =>
    simp only [List.isEmpty_iff] at h
    rw [h]
    simp
  next h => simp

/-- C1: `diff_new_items` returns exactly the in-order subsequence of
candidates whose URL is not in the store's set for the source, and — when
that result is non-empty — the updated entry for the source has, as a set,
exactly the union of the old URL set and the URLs of the full supplied
candidate sequence. -/
theorem C1_diff_new_items_filter_and_union (name : String) (items : List Item)
    (seen : SeenStore) :
    (diff_new_items name items seen).1 =
      (items.filter fun item => decide (item.url ∉ seen name)) ∧
    ((diff_new_items name items seen).1 ≠ [] →
      ∀ u, u ∈ (diff_new_items name items seen).2 name ↔
        u ∈ seen name ∨ u ∈ items.map Item.url) := by
  refine ⟨diff_new_items_fst name items seen, fun _ u => ?_⟩
  rw [mem_diff_new_items_snd]
  constructor
  · rintro (h | h)
    · exact Or.inl h
    · obtain ⟨it, hit, rfl⟩ := List.mem_map.mp h
      exact Or.inr (List.mem_map_of_mem _ (List.mem_of_mem_filter hit))
  · rintro (h | h)
    · exact Or.inl h
    · obtain ⟨it, hit, rfl⟩ := List.mem_map.mp h
      by_cases hu : it.url ∈ seen name
      · exact Or.inl hu
      · exact Or.inr
          (List.mem_map_of_mem _ (List.mem_filter.mpr ⟨hit, by simpa using hu⟩))

/-- C1 witness: the worked example from the spec, instantiated. -/
theorem C1_witness :
    (diff_new_items "Example" itemsEx storeEx).1 ≠ [] ∧
    ("https://new.com" ∈ (diff_new_items "Example" itemsEx storeEx).2 "Example" ↔
      "https://new.com" ∈ storeEx "Example" ∨
        "https://new.com" ∈ itemsEx.map Item.url) :=
  ⟨by decide,
   (C1_diff_new_items_filter_and_union "Example" itemsEx storeEx).2 (by decide)
     "https://new.com"⟩

/-- C5: running `diff_new_items` a second time with the same source and
candidate list against the store produced by the first call returns `[]`. -/
theorem C5_diff_new_items_idempotent (name : String) (items : List Item)
    (seen : SeenStore) :
    (diff_new_items name items ((diff_new_items name items seen).2)).1 = [] := by
  rw [diff_new_items_fst]
  rw [List.filter_eq_nil_iff]
  intro it hit
  simp only [decide_eq_true_eq, Decidable.not_not]
  rw [mem_diff_new_items_snd]
  by_cases hu : it.url ∈ seen name
  · exact Or.inl hu
  · exact Or.inr
      (List.mem_map_of_mem _ (List.mem_filter.mpr ⟨hit, by simpa using hu⟩))

/-- C6: each source's recorded URL set only grows across a call, and a URL
already recorded for the processed source never appears among the URLs of
the returned new items. -/
theorem C6_seen_monotone_and_no_repeat (name : String) (items : List Item)
    (seen : SeenStore) :
    (∀ n u, u ∈ seen n → u ∈ (diff_new_items name items seen).2 n) ∧
    (∀ u, u ∈ seen name →
      u ∉ (diff_new_items name items seen).1.map Item.url) := by
  constructor
  · intro n u hu
    by_cases hn : n = name
    · subst hn
      rw [mem_diff_new_items_snd]
      exact Or.inl hu
    · rw [diff_new_items_snd_other name items seen n hn]
      exact hu
  · intro u hu hmem
    rw [diff_new_items_fst] at hmem
    obtain ⟨it, hit, rfl⟩ := List.mem_map.mp hmem
    have hn := (List.mem_filter.mp hit).2
    simp only [decide_eq_true_eq] at hn
    exact hn hu

/-! ### Candidate-filter claims -/

/-- C7: the trade denylist is a hard filter — an anchor whose normalized
title contains a denylisted term never survives the per-anchor filter (with
any keyword configuration, in particular when an include keyword matches);
and an anchor free of denylisted terms that passes every other per-anchor
check is kept, so the trade rule alone never rejects it. -/
theorem C7_trade_denylist_hard (include_keywords exclude_keywords : List String)
    (anchors : List Anchor) (a : Anchor) :
    (trade_drop a.title = true →
      a ∉ candidate_filter include_keywords exclude_keywords anchors) ∧
    (trade_drop a.title = false →
      (a.scheme = "http" ∨ a.scheme = "https") →
      a.netloc ≠ "" →
      strEndsWith a.href "#" = false →
      a.fragment = "" →
      (include_keywords.map strLower = [] ∨
        ((include_keywords.map strLower).any fun k =>
          strIn k.data (normalize_text (a.title ++ " " ++ a.href)).data) = true) →
      ((exclude_keywords.map strLower).any fun k =>
        strIn k.data (normalize_text (a.title ++ " " ++ a.href)).data) = false →
      a ∈ anchors →
      a ∈ candidate_filter include_keywords exclude_keywords anchors) := by
  constructor
  · intro htd hmem
    have hp := List.of_mem_filter hmem
    unfold anchor_passes at hp
    dsimp only at hp
    repeat' split at hp
    all_goals simp_all
  · intro htd hscheme hnet hend hfrag hinc hexc hmem
    apply List.mem_filter.mpr
    refine ⟨hmem, ?_⟩
    unfold anchor_passes
    dsimp only
    repeat' split
    all_goals simp_all

/-- C7 witness: `anchorRoad` (denylisted title, include keyword matching) is
rejected; `anchorWeb` (clean title, all other checks passing) is kept. -/
theorem C7_witness :
    anchorRoad ∉ candidate_filter ["repair"] [] [anchorRoad] ∧
    anchorWeb ∈ candidate_filter ["portal"] [] [anchorWeb] :=
  ⟨(C7_trade_denylist_hard ["repair"] [] [anchorRoad] anchorRoad).1 (by decide),
   (C7_trade_denylist_hard ["portal"] [] [anchorWeb] anchorWeb).2 (by decide)
     (by decide) (by decide) (by decide) (by decide) (by decide) (by decide)
     (by decide)⟩

/-- C10: `trade_drop` tests raw substring containment on the normalized
title, so a denylisted term occurring inside a longer word still fires: in
particular a normalized title containing `"business"` (which contains
`"bus"`) or `"broadband"` (which contains `"road"`) is always dropped. -/
theorem C10_raw_substring_drop (title : String) :
    (∀ w, w ∈ TRADE_DROP_WORDS →
      strIn w.data (normalize_text title).data = true →
      trade_drop title = true) ∧
    (strIn "business".data (normalize_text title).data = true →
      trade_drop title = true) ∧
    (strIn "broadband".data (normalize_text title).data = true →
      trade_drop title = true) := by
  have base : ∀ w, w ∈ TRADE_DROP_WORDS →
      strIn w.data (normalize_text title).data = true →
      trade_drop title = true := by
    intro w hw hin
    unfold trade_drop
    dsimp only
    rw [List.any_eq_true]
    exact ⟨w, hw, hin⟩
  refine ⟨base, fun h => ?_, fun h => ?_⟩
  · exact base "bus" (by decide) (strIn_trans (by decide) h)
  · exact base "road" (by decide) (strIn_trans (by decide) h)

/-- C10 witness: titles embedding a denylisted term inside a longer word are
dropped. -/
theorem C10_witness :
    trade_drop "Annual Business Forum" = true ∧
    trade_drop "Municipal Broadband Initiative" = true :=
  ⟨(C10_raw_substring_drop "Annual Business Forum").2.1 (by decide),
   (C10_raw_substring_drop "Municipal Broadband Initiative").2.2 (by decide)⟩

/-! ### LLM-filter lemmas -/

/-- A failing (or never-made) external call always yields the input back. -/
theorem llm_filter_error_eq (items : List Item) (cfg : LlmCfg) (e : Env)
    (sdkAvailable : Bool) :
    llm_filter items cfg e sdkAvailable .error = .ok items := by
  unfold llm_filter
  dsimp only
  repeat' split
  all_goals rfl

/-- When all four guards pass and the response decodes to
`{"results": recs}`, the output is the verdict-loop fold over `recs`. -/
theorem llm_filter_run (items : List Item) (cfg : LlmCfg) (e : Env)
    (recs : List JValue) (hne : items ≠ [])
    (hen : llm_enabled cfg e = true)
    (hkey : (e.get? cfg.api_key_env).getD "" ≠ "") :
    llm_filter items cfg e true (.ok (mkData recs)) =
      .ok (recs.filterMap (parse_rec items cfg.rationale)) := by
  unfold llm_filter
  dsimp only
  rw [if_neg (by simpa using hne), if_neg (by simp [hen]), if_neg hkey,
    if_neg (by simp)]
  rfl

/-- Full evaluation of `llm_filter` on a decoded `{"results": recs}`
response: the guards short-circuit to the input, otherwise the verdict loop
runs. -/
theorem llm_filter_mkData_eq (items : List Item) (cfg : LlmCfg) (e : Env)
    (sdkAvailable : Bool) (recs : List JValue) :
    llm_filter items cfg e sdkAvailable (.ok (mkData recs)) =
      if items.isEmpty = true ∨ llm_enabled cfg e = false ∨
          (e.get? cfg.api_key_env).getD "" = "" ∨ sdkAvailable = false
      then .ok items
      else .ok (recs.filterMap (parse_rec items cfg.rationale)) := by
  unfold llm_filter
  dsimp only
  by_cases h1 : items.isEmpty = true
  · simp [h1]
  · by_cases h2 : llm_enabled cfg e = false
    · simp [h1, h2]
    · by_cases h3 : (e.get? cfg.api_key_env).getD "" = ""
      · simp [h1, h2, h3]
      · by_cases h4 : sdkAvailable = false
        · simp [h1, h2, h3, h4]
        · rw [if_neg h1, if_neg h2, if_neg h3, if_neg h4,
            if_neg (by simp [h1, h2, h3, h4])]
          rfl

/-- A malformed or out-of-range verdict record contributes nothing. -/
theorem parse_rec_none_of_malformed (items : List Item) (rationale : Bool)
    (rcd : JValue) (h : malformed_or_oob items rcd) :
    parse_rec items rationale rcd = none := by
  unfold malformed_or_oob at h
  unfold parse_rec
  cases rcd <;> try rfl
  next fields =>
    dsimp only at h ⊢
    rcases h with h | ⟨i, hi, hrange⟩
    · rw [h]
    · rw [hi]
      dsimp only
      rw [if_neg]
      rintro ⟨h1, h2, -⟩
      exact hrange ⟨h1, h2⟩

/-- C4: `llm_filter` is the identity (for every possible call outcome, hence
with no external call) whenever the input is empty, the resolved enable flag
is false, the resolved credential slot is empty/absent, or the SDK import
fails; and the enable flag resolves an env value that is a recognized
boolean token (case-insensitively, after stripping) over the static flag,
while an unrecognized or absent value falls through to the static flag. -/
theorem C4_short_circuits (items : List Item) (cfg : LlmCfg) (e : Env)
    (sdkAvailable : Bool) (call : CallResult) :
    ((items = [] ∨ llm_enabled cfg e = false ∨
        (e.get? cfg.api_key_env).getD "" = "" ∨ sdkAvailable = false) →
      llm_filter items cfg e sdkAvailable call = .ok items) ∧
    (∀ raw, e.get? cfg.enabled_env = some raw →
      (strLower (pyStrip raw) ∈ TRUTHY_ENV → llm_enabled cfg e = true) ∧
      (strLower (pyStrip raw) ∈ FALSY_ENV → llm_enabled cfg e = false) ∧
      (strLower (pyStrip raw) ∉ TRUTHY_ENV → strLower (pyStrip raw) ∉ FALSY_ENV →
        llm_enabled cfg e = cfg.enabled)) ∧
    (e.get? cfg.enabled_env = none → llm_enabled cfg e = cfg.enabled) := by
  refine ⟨?_, ?_, ?_⟩
  · rintro (rfl | hoff | hkey | hsdk)
    · rfl
    · unfold llm_filter
      dsimp only
      split
      · rfl
      · rfl
    · unfold llm_filter
      dsimp only
      split
      · rfl
      · split
        · rfl
        · rfl
    · subst hsdk
      unfold llm_filter
      dsimp only
      repeat' split
      all_goals first | rfl | simp_all
  · intro raw hraw
    unfold llm_enabled env_flag
    rw [hraw]
    dsimp only
    refine ⟨fun ht => ?_, fun hf => ?_, fun hnt hnf => ?_⟩
    · rw [if_pos (by simpa [List.contains, List.elem_iff] using ht)]
    · have hnt : strLower (pyStrip raw) ∉ TRUTHY_ENV := by
        intro hmem
        simp only [TRUTHY_ENV, List.mem_cons, List.not_mem_nil, or_false] at hmem
        rcases hmem with h | h | h | h <;> rw [h] at hf <;> revert hf <;> decide
      rw [if_neg (by simpa [List.contains, List.elem_iff] using hnt),
        if_pos (by simpa [List.contains, List.elem_iff] using hf)]
    · rw [if_neg (by simpa [List.contains, List.elem_iff] using hnt),
        if_neg (by simpa [List.contains, List.elem_iff] using hnf)]
  · intro hnone
    unfold llm_enabled env_flag
    rw [hnone]

/-- C4 witness: statically enabled but disabled through the env token `"0"`,
with a key present — the input passes through for any call outcome. -/
theorem C4_witness :
    llm_filter [itemA] { enabled := true } envOff true
        (.ok respOrdered) = .ok [itemA] ∧
    llm_enabled { enabled := true } envOff = false :=
  ⟨(C4_short_circuits [itemA] { enabled := true } envOff true
      (.ok respOrdered)).1 (Or.inr (Or.inl (by decide))),
   ((C4_short_circuits [itemA] { enabled := true } envOff true
      (.ok respOrdered)).2.1 "0" (by decide)).2.1 (by decide)⟩

/-- C3: (fail open) any error in the external call or the decoding of its
response returns the original input unchanged; and a malformed or
out-of-range verdict record is discarded without affecting the processing of
the other records in the batch. -/
theorem C3_fail_open_and_permissive (items : List Item) (cfg : LlmCfg)
    (e : Env) (sdkAvailable : Bool) :
    (items ≠ [] → llm_filter items cfg e sdkAvailable .error = .ok items) ∧
    (∀ recs1 recs2 rcd, malformed_or_oob items rcd →
      llm_filter items cfg e sdkAvailable (.ok (mkData (recs1 ++ rcd :: recs2))) =
        llm_filter items cfg e sdkAvailable (.ok (mkData (recs1 ++ recs2)))) := by
  constructor
  · intro _
    exact llm_filter_error_eq items cfg e sdkAvailable
  · intro recs1 recs2 rcd hbad
    rw [llm_filter_mkData_eq, llm_filter_mkData_eq]
    by_cases hg : items.isEmpty = true ∨ llm_enabled cfg e = false ∨
        (e.get? cfg.api_key_env).getD "" = "" ∨ sdkAvailable = false
    · rw [if_pos hg, if_pos hg]
    · rw [if_neg hg, if_neg hg]
      rw [List.filterMap_append, List.filterMap_append, List.filterMap_cons,
        parse_rec_none_of_malformed items cfg.rationale rcd hbad]

/-- C3 witness: a transport error passes the batch through; a malformed
record and an out-of-range record are dropped without affecting the rest. -/
theorem C3_witness :
    llm_filter [itemA] cfgOn envKey true .error = .ok [itemA] ∧
    llm_filter [itemA] cfgOn envKey true (.ok (mkData [recBad, recKeep 0])) =
      llm_filter [itemA] cfgOn envKey true (.ok (mkData [recKeep 0])) ∧
    llm_filter [itemA] cfgOn envKey true (.ok (mkData [recKeep 5, recKeep 0])) =
      llm_filter [itemA] cfgOn envKey true (.ok (mkData [recKeep 0])) :=
  ⟨(C3_fail_open_and_permissive [itemA] cfgOn envKey true).1 (by decide),
   (C3_fail_open_and_permissive [itemA] cfgOn envKey true).2 [] [recKeep 0]
     recBad trivial,
   (C3_fail_open_and_permissive [itemA] cfgOn envKey true).2 [] [recKeep 0]
     (recKeep 5) (Or.inr ⟨5, rfl, by decide⟩)⟩

/-- With rationale display off, a record's contribution is exactly the item
at its validly-kept index. -/
theorem parse_rec_false_eq (items : List Item) (rcd : JValue) :
    parse_rec items false rcd =
      (rec_kept_index? items rcd).bind fun i => items[i]? := by
  unfold parse_rec rec_kept_index?
  cases rcd <;> try rfl
  next fields =>
    dsimp only
    cases hi : pyInt? (jget fields "index")
    · rfl
    next idx =>
      dsimp only
      split
      next hcond =>
        dsimp only [Option.bind]
        cases hx : items[idx.toNat]?
        · rfl
        next item =>
          cases item
          rfl
      next hcond => rfl

/-- Indices that are strictly increasing and at least `k` select a sublist
of `l.drop k`. -/
theorem filterMap_getElem_sublist_drop {α : Type} (l : List α) :
    ∀ (idxs : List Nat) (k : Nat), idxs.Pairwise (· < ·) →
      (∀ i ∈ idxs, k ≤ i) →
      (idxs.filterMap fun i => l[i]?).Sublist (l.drop k) := by
  intro idxs
  induction idxs with
  | nil =>
    intro k _ _
    simp
  | cons i tl ih =>
    intro k hpw hge
    rw [List.pairwise_cons] at hpw
    rw [List.filterMap_cons]
    cases hl : l[i]? with
    | none =>
      have hlen : l.length ≤ i := by simpa using hl
      have htl : tl.filterMap (fun j => l[j]?) = [] := by
        rw [List.filterMap_eq_nil_iff]
        intro j hj
        exact List.getElem?_eq_none (le_trans hlen (le_of_lt (hpw.1 j hj)))
      rw [htl]
      simp
    | some a =>
      obtain ⟨hi, rfl⟩ := List.getElem?_eq_some_iff.mp hl
      have htl : (tl.filterMap fun j => l[j]?).Sublist (l.drop (i + 1)) :=
        ih (i + 1) hpw.2 (fun j hj => hpw.1 j hj)
      have hstep : (l[i] :: tl.filterMap fun j => l[j]?).Sublist (l.drop i) := by
        rw [List.drop_eq_getElem_cons hi]
        exact htl.cons₂ l[i]
      refine hstep.trans ?_
      have hk : k ≤ i := hge i (List.mem_cons_self i tl)
      have : l.drop i = (l.drop k).drop (i - k) := by
        rw [List.drop_drop]
        congr 1
        omega
      rw [this]
      exact List.drop_sublist (i - k) (l.drop k)

/-- Strictly increasing indices select a sublist. -/
theorem filterMap_getElem_sublist {α : Type} (l : List α) (idxs : List Nat)
    (h : idxs.Pairwise (· < ·)) :
    (idxs.filterMap fun i => l[i]?).Sublist l := by
  have := filterMap_getElem_sublist_drop l idxs 0 h (fun i _ => Nat.zero_le i)
  simpa using this

/-- C2 counterexample: all guards pass, both candidates get `keep = true`
verdicts, but the records are listed in decreasing index order, so the code
outputs `[itemB, itemA]` — not the original submission order
`[itemA, itemB]` the claim requires. -/
theorem C2_counterexample :
    llm_filter [itemA, itemB] cfgOn envKey true (.ok respSwapped) =
      .ok [itemB, itemA] ∧
    ([itemB, itemA] : List Item) ≠ [itemA, itemB] :=
  ⟨rfl, by decide⟩

/-- C2 (amended): with the guards passed and the response decoding to
`{"results": recs}`, the output is exactly the fold of the valid keep=true
verdict records — each output element comes from some record, in the order
(and multiplicity) the records appear in the response, not necessarily the
submission order; when the validly kept indices are strictly increasing
(records listed in submission order, as requested of the model) the output
preserves the original submission order (is a sublist of the input; shown
with rationale display off, where items pass through unmodified). -/
theorem C2_amended_llm_filter_order (items : List Item) (cfg : LlmCfg)
    (e : Env) (recs : List JValue) (hne : items ≠ [])
    (hen : llm_enabled cfg e = true)
    (hkey : (e.get? cfg.api_key_env).getD "" ≠ "") :
    llm_filter items cfg e true (.ok (mkData recs)) =
      .ok (recs.filterMap (parse_rec items cfg.rationale)) ∧
    (∀ x, x ∈ recs.filterMap (parse_rec items cfg.rationale) ↔
      ∃ rcd ∈ recs, parse_rec items cfg.rationale rcd = some x) ∧
    (cfg.rationale = false →
      (recs.filterMap (rec_kept_index? items)).Pairwise (· < ·) →
      (recs.filterMap (parse_rec items cfg.rationale)).Sublist items) := by
  refine ⟨llm_filter_run items cfg e recs hne hen hkey,
    fun x => List.mem_filterMap, fun hrat hpw => ?_⟩
  rw [hrat]
  have heq : recs.filterMap (parse_rec items false) =
      (recs.filterMap (rec_kept_index? items)).filterMap fun i => items[i]? := by
    rw [List.filterMap_filterMap]
    exact List.filterMap_congr fun rcd _ => parse_rec_false_eq items rcd
  rw [heq]
  exact filterMap_getElem_sublist items _ hpw

/-- C2 witness: an in-order response keeps both candidates, and the output
is a sublist of the input (original order). -/
theorem C2_witness :
    llm_filter [itemA, itemB] cfgOn envKey true (.ok respOrdered) =
      .ok ([recKeep 0, recKeep 1].filterMap
        (parse_rec [itemA, itemB] cfgOn.rationale)) ∧
    ([recKeep 0, recKeep 1].filterMap
      (parse_rec [itemA, itemB] cfgOn.rationale)).Sublist [itemA, itemB] :=
  ⟨(C2_amended_llm_filter_order [itemA, itemB] cfgOn envKey
      [recKeep 0, recKeep 1] (by decide) (by decide) (by decide)).1,
   (C2_amended_llm_filter_order [itemA, itemB] cfgOn envKey
      [recKeep 0, recKeep 1] (by decide) (by decide) (by decide)).2.2 rfl
     (by decide)⟩

/-- C9 counterexample: the model-override environment variable is set (to
the empty string), yet the resolved model is the configured one, not the
environment value — refuting the claim for that input. -/
theorem C9_counterexample :
    envEmptyModel.get? cfgModelled.model_env = some "" ∧
    llm_model cfgModelled envEmptyModel = "cfg-model" ∧
    ("cfg-model" : String) ≠ "" :=
  ⟨rfl, rfl, by decide⟩

/-- C9 (amended): whenever the model-override environment variable (the key
named by `model_env`, defaulting to `LLM_MODEL`) is set to a *non-empty*
value, the resolved model equals that value (Python's `or` lets an empty
value fall through to the configured default). -/
theorem C9_amended_model_override (cfg : LlmCfg) (e : Env) (v : String)
    (hv : e.get? cfg.model_env = some v) (hne : v ≠ "") :
    llm_model cfg e = v := by
  unfold llm_model
  rw [hv]
  dsimp only
  rw [if_neg hne]

/-- C9 witness: a non-empty override wins over the configured model. -/
theorem C9_witness : llm_model cfgModelled envModelSet = "gpt-xyz" :=
  C9_amended_model_override cfgModelled envModelSet "gpt-xyz" rfl (by decide)

/-! ### Report formatter lemmas -/

theorem strData_append (a b : String) : (a ++ b).data = a.data ++ b.data := rfl

/-- A member line occurs in the `"\n"`-joined text. -/
theorem strIn_join_nl_of_mem {s : String} {lines : List String}
    (h : s ∈ lines) : strIn s.data (join_nl lines).data = true := by
  induction lines with
  | nil => cases h
  | cons l rest ih =>
    cases rest with
    | nil =>
      rcases List.mem_cons.mp h with rfl | h2
      · exact strIn_refl _
      · cases h2
    | cons l2 rest2 =>
      rcases List.mem_cons.mp h with rfl | h2
      · show strIn s.data ((s ++ "\n" ++ join_nl (l2 :: rest2))).data = true
        rw [strData_append, strData_append, strIn_iff]
        exact ⟨[], "\n".data ++ (join_nl (l2 :: rest2)).data, by simp⟩
      · have hin := ih h2
        show strIn s.data ((l ++ "\n" ++ join_nl (l2 :: rest2))).data = true
        rw [strData_append, strData_append, strIn_iff]
        rw [strIn_iff] at hin
        obtain ⟨p, t, hpt⟩ := hin
        exact ⟨(l.data ++ "\n".data) ++ p, t, by rw [hpt]; simp⟩

/-- Any line of the non-empty report's line list is contained in the
formatted output. -/
theorem strIn_format_report_of_mem (now : PyDateTime)
    (m : List (String × List Item)) (hm : m ≠ []) {s : String}
    (h : s ∈ report_lines now m) :
    strIn s.data (format_report now m).data = true := by
  unfold format_report
  rw [if_neg (by simpa using hm)]
  exact strIn_join_nl_of_mem h

/-- Lines of a present source's block are lines of the report. -/
theorem mem_report_lines_of_mem_block {now : PyDateTime}
    {m : List (String × List Item)} {p : String × List Item} (hp : p ∈ m)
    {s : String} (h : s ∈ source_block p.1 p.2) :
    s ∈ report_lines now m := by
  unfold report_lines
  exact List.mem_cons_of_mem _ (List.mem_cons_of_mem _
    (List.mem_flatMap.mpr ⟨p, hp, h⟩))

/-- C8: formatting an empty mapping produces exactly the fixed "no new
items" sentence and nothing else; formatting a non-empty mapping at a fixed
instant (a pure function of its inputs, hence deterministic) yields text
containing the header line with the zero-padded `YYYY-MM-DD HH:MM`
timestamp, each source name, each item title, each item URL, and each
present reason as an indented `"  Reason: ..."` line — an item's block
carries such a line exactly when the item has a reason. -/
theorem C8_format_report_content (now : PyDateTime)
    (m : List (String × List Item)) :
    format_report now [] = "No new RFPs or calls for proposals found today." ∧
    (m ≠ [] →
      strIn ("RFP Monitor Report – " ++ strftime_stamp now).data
        (format_report now m).data = true ∧
      ∀ p ∈ m, strIn p.1.data (format_report now m).data = true ∧
        ∀ it ∈ p.2, strIn it.title.data (format_report now m).data = true ∧
          strIn it.url.data (format_report now m).data = true ∧
          ∀ r, it.reason = some r →
            strIn ("  Reason: " ++ r).data (format_report now m).data = true) ∧
    (∀ it : Item, it.reason = none →
      item_lines it = ["- " ++ it.title, "  " ++ it.url]) ∧
    (∀ it : Item, ∀ r, it.reason = some r →
      item_lines it = ["- " ++ it.title, "  Reason: " ++ r, "  " ++ it.url]) := by
  refine ⟨rfl, fun hm => ⟨?_, ?_⟩, fun it h => by rw [item_lines, h],
    fun it r h => by rw [item_lines, h]⟩
  · exact strIn_format_report_of_mem now m hm (List.mem_cons_self _ _)
  · intro p hp
    have hname : ("\n" ++ p.1) ∈ report_lines now m :=
      mem_report_lines_of_mem_block hp (List.mem_cons_self _ _)
    refine ⟨?_, ?_⟩
    · refine strIn_trans ?_ (strIn_format_report_of_mem now m hm hname)
      rw [strIn_iff]
      exact ⟨"\n".data, [], by simp [strData_append]⟩
    · intro it hit
      have hmemlines : ∀ s ∈ item_lines it, s ∈ report_lines now m := by
        intro s hs
        exact mem_report_lines_of_mem_block hp
          (List.mem_cons_of_mem _ (List.mem_cons_of_mem _
            (List.mem_flatMap.mpr ⟨it, hit, hs⟩)))
      refine ⟨?_, ?_, ?_⟩
      · refine strIn_trans ?_ (strIn_format_report_of_mem now m hm
          (hmemlines ("- " ++ it.title) (by simp [item_lines])))
        rw [strIn_iff]
        exact ⟨"- ".data, [], by simp [strData_append]⟩
      · have hurl : ("  " ++ it.url) ∈ item_lines it := by
          cases h : it.reason <;> simp [item_lines, h]
        refine strIn_trans ?_ (strIn_format_report_of_mem now m hm
          (hmemlines _ hurl))
        rw [strIn_iff]
        exact ⟨"  ".data, [], by simp [strData_append]⟩
      · intro r hr
        exact strIn_format_report_of_mem now m hm
          (hmemlines ("  Reason: " ++ r) (by simp [item_lines, hr]))

/-- C8 witness: the spec's worked example at the fixed instant
2024-01-01 12:30. -/
theorem C8_witness :
    strftime_stamp timeEx = "2024-01-01 12:30" ∧
    strIn ("RFP Monitor Report – " ++ strftime_stamp timeEx).data
      (format_report timeEx reportEx).data = true ∧
    strIn "Example".data (format_report timeEx reportEx).data = true ∧
    strIn "Item".data (format_report timeEx reportEx).data = true ∧
    strIn "https://x.com".data (format_report timeEx reportEx).data = true ∧
    format_report timeEx [] =
      "No new RFPs or calls for proposals found today." :=
  ⟨by decide,
   ((C8_format_report_content timeEx reportEx).2.1 (by decide)).1,
   (((C8_format_report_content timeEx reportEx).2.1 (by decide)).2
      ("Example", [⟨"Item", "https://x.com", none⟩]) (by decide)).1,
   ((((C8_format_report_content timeEx reportEx).2.1 (by decide)).2
      ("Example", [⟨"Item", "https://x.com", none⟩]) (by decide)).2
      ⟨"Item", "https://x.com", none⟩ (by decide)).1,
   ((((C8_format_report_content timeEx reportEx).2.1 (by decide)).2
      ("Example", [⟨"Item", "https://x.com", none⟩]) (by decide)).2
      ⟨"Item", "https://x.com", none⟩ (by decide)).2.1,
   (C8_format_report_content timeEx reportEx).1⟩

/-- C6 witness: the recorded URL survives the call and is absent from the
new-items URLs. -/
theorem C6_witness :
    "https://old.com" ∈ (diff_new_items "Example" itemsEx storeEx).2 "Example" ∧
    "https://old.com" ∉ (diff_new_items "Example" itemsEx storeEx).1.map Item.url :=
  ⟨(C6_seen_monotone_and_no_repeat "Example" itemsEx storeEx).1 "Example"
      "https://old.com" (by decide),
   (C6_seen_monotone_and_no_repeat "Example" itemsEx storeEx).2
      "https://old.com" (by decide)⟩

end RFP
